import Mathlib

/-!
Verification development for the multirbl-lookup-server core: a shallow
embedding of its reverse-IP parsing, DNS request routing, single-RBL
classification, aggregate response building, two-tier cache and custom-RBL
CIDR matching, together with theorems settling the specification claims.

JavaScript strings manipulated character-by-character (split, join,
replace-first-occurrence) are modelled as `List Char`; opaque strings
(names, descriptions, error messages) stay `String`.
-/

namespace MultiRbl

/-! ## JavaScript string primitives (used by rbl-lookup.js and dns-server.js) -/

/-- Model of JS `s.split(sep)` for a one-character separator.
`"".split('.')` is `[""]`, `".a".split('.')` is `["", "a"]`. -/
def jsSplitOn (sep : Char) : List Char → List (List Char)
  | [] => [[]]
  | c :: rest =>
    if c = sep then [] :: jsSplitOn sep rest
    else
      match jsSplitOn sep rest with
      | [] => [[c]]
      | g :: gs => (c :: g) :: gs

/-- Model of JS `parts.join(sep)` for a one-character separator. -/
def jsJoin (sep : Char) : List (List Char) → List Char
  | [] => []
  | [p] => p
  | p :: ps => p ++ sep :: jsJoin sep ps

/-- Model of JS `s.replace(pat, '')`: remove the first occurrence of the
substring `pat` from `s`; `s` is unchanged when `pat` does not occur. -/
def jsReplaceFirst (s pat : List Char) : List Char :=
  match s with
  | [] => []
  | c :: rest =>
    if pat.isPrefixOf (c :: rest) then (c :: rest).drop pat.length
    else c :: jsReplaceFirst rest pat

/-- Model of JS `s.endsWith(pat)`. -/
def jsEndsWith (s pat : List Char) : Bool :=
  pat.isSuffixOf s

/-- Numeric value of a list of decimal digit characters. -/
def digitsVal (ds : List Char) : Nat :=
  ds.foldl (fun acc c => acc * 10 + (c.toNat - 48)) 0

/-- The leading run of decimal digits, or `none` when there is none. -/
def leadDigits (cs : List Char) : Option Nat :=
  let ds := cs.takeWhile Char.isDigit
  if ds = [] then none else some (digitsVal ds)

/-- Model of JS `parseInt(s, 10)` on inputs without leading whitespace:
an optional sign followed by a maximal run of decimal digits; trailing
garbage is ignored; no digits means NaN, modelled as `none`. -/
def jsParseInt (s : List Char) : Option Int :=
  match s with
  | '-' :: rest => (leadDigits rest).map (fun n => -(n : Int))
  | '+' :: rest => (leadDigits rest).map (fun n => (n : Int))
  | _ => (leadDigits s).map (fun n => (n : Int))

/-- The per-octet validation loop of `parseReverseIp`/`parseMultiRblIp`:
`const num = parseInt(part, 10); !(isNaN(num) || num < 0 || num > 255)`. -/
def jsOctetOk (part : List Char) : Bool :=
  match jsParseInt part with
  | none => false
  | some n => decide (0 ≤ n ∧ n ≤ 255)

/-! ## Reverse-IP helpers (rbl-lookup.js `reverseIp`, dns-server.js
`parseReverseIp` and `parseMultiRblIp`) -/

/-- Function `reverseIp` from rbl-lookup.js: `ip.split('.').reverse().join('.')`. -/
def reverseIp (ip : List Char) : List Char :=
  jsJoin '.' ((jsSplitOn '.' ip).reverse)

/-- Function `parseReverseIp(query, rblHost)` from dns-server.js: strip the first
occurrence of `"." + rblHost`, split on dots, reverse, require exactly four
octets each parsing to a value in [0, 255], and join. -/
def parseReverseIp (query rblHost : List Char) : Option (List Char) :=
  let pre := jsReplaceFirst query ('.' :: rblHost)
  let parts := (jsSplitOn '.' pre).reverse
  if parts.length ≠ 4 then none
  else if parts.all jsOctetOk then some (jsJoin '.' parts)
  else none

/-- Function `parseMultiRblIp(query, domain)` from dns-server.js: require the
`"." + domain` suffix, strip its first occurrence, split on dots, require
exactly four valid octets, and join in reversed order. -/
def parseMultiRblIp (query domain : List Char) : Option (List Char) :=
  if ¬ jsEndsWith query ('.' :: domain) then none
  else
    let pre := jsReplaceFirst query ('.' :: domain)
    let parts := jsSplitOn '.' pre
    if parts.length ≠ 4 then none
    else if parts.all jsOctetOk then some (jsJoin '.' parts.reverse)
    else none

example : jsSplitOn '.' ("1.2.3.4".toList) = [['1'], ['2'], ['3'], ['4']] := by decide

example : reverseIp ("1.2.3.4".toList) = "4.3.2.1".toList := by decide

example :
    parseReverseIp ("2.0.0.127.zen.spamhaus.org".toList) ("zen.spamhaus.org".toList)
      = some ("127.0.0.2".toList) := by decide

example :
    parseReverseIp (reverseIp ("1.2.3.4".toList) ++ '.' :: "3".toList) ("3".toList)
      = some ("3.1.2.4".toList) := by decide

example :
    parseMultiRblIp ("2.0.0.127.multi.example.com".toList) ("multi.example.com".toList)
      = some ("127.0.0.2".toList) := by decide

/-! ## Single-RBL classification (rbl-lookup-cached.js `lookupSingleRbl`) -/

/-- An RBL descriptor as loaded from the servers file. -/
structure RblServer where
  name : String
  host : List Char
  description : String
deriving DecidableEq

/-- One record of a `dns.resolve4(query, { ttl: true })` answer: an address
string plus the reported TTL (`none` when the resolver reports none). -/
structure A4Record where
  address : String
  ttl : Option Nat
deriving DecidableEq

/-- A rejection of the `dns.resolve4` promise (or of the racing timeout):
the JS error's `code` property (absent for plain `Error`s) and message. -/
structure DnsError where
  code : Option String
  message : String
deriving DecidableEq

/-- Outcome of awaiting the race between `dns.resolve4` and the timeout:
either the answer array or the caught error. -/
inductive DnsOutcome where
  | ok (records : List A4Record)
  | err (e : DnsError)
deriving DecidableEq

/-- The JS value stored in a result's `response` field: normally an address
string; in the code's fallback branch (first record with a falsy `address`
property) the whole first record object. -/
inductive RespVal where
  | str (s : String)
  | obj (r : A4Record)
deriving DecidableEq

/-- Result object of `lookupSingleRbl`. `listed` is `true`/`false`/`null`
in JS, modelled as `Option Bool` with `none` for `null`. -/
structure RblResult where
  name : String
  host : List Char
  description : String
  listed : Option Bool
  response : Option RespVal
  responseTime : Nat
  error : Option String
  ttl : Nat
deriving DecidableEq

/-- Function `lookupSingleRbl` from rbl-lookup-cached.js, as a function of the
upstream outcome. A successful resolution is classified `listed: true` with
`response` the first record's address and `ttl = result[0].ttl || 3600`
(`0` and a missing TTL both fall back to 3600); `ENOTFOUND`/`ENODATA`
errors give `listed: false` with TTL 3600; every other error gives
`listed: null` with the error message and TTL 300. With `{ ttl: true }`
the records are objects, so the code's object test reduces to the
truthiness of the first record's `address` string. -/
def lookupSingleRbl (rbl : RblServer) (outcome : DnsOutcome) (responseTime : Nat) :
    RblResult :=
  match outcome with
  | .ok result =>
    let p : Option RespVal × Nat :=
      match result with
      | [] => (none, 3600)
      | r :: _ =>
        if r.address ≠ "" then
          (some (.str r.address),
            match r.ttl with
            | some t => if t = 0 then 3600 else t
            | none => 3600)
        else (some (.obj r), 3600)
    { name := rbl.name, host := rbl.host, description := rbl.description,
      listed := some true, response := p.1, responseTime := responseTime,
      error := none, ttl := p.2 }
  | .err e =>
    if e.code = some ("ENOTFOUND") ∨ e.code = some ("ENODATA") then
      { name := rbl.name, host := rbl.host, description := rbl.description,
        listed := some false, response := none, responseTime := responseTime,
        error := none, ttl := 3600 }
    else
      { name := rbl.name, host := rbl.host, description := rbl.description,
        listed := none, response := none, responseTime := responseTime,
        error := some e.message, ttl := 300 }

/-- The TTL that claim C1 prescribes for a non-empty answer, following the
spec's words rather than the source: the maximum of the reported record
TTLs and 1, defaulting to 3600 s when no record reports a TTL. -/
def specClaimTtl (records : List A4Record) : Nat :=
  match records.filterMap A4Record.ttl with
  | [] => 3600
  | t :: ts => max (ts.foldl max t) 1

/-! ## Aggregate response building (dns-server.js `performMultiRblLookup`) -/

/-- DNS qtype numeric constants used by the server. -/
def qtypeA : Nat := 1

/-- DNS qtype numeric constant for TXT. -/
def qtypeTXT : Nat := 16

/-- DNS rcode numeric constant for NOERROR. -/
def rcodeNOERROR : Nat := 0

/-- DNS rcode numeric constant for NOTFOUND (NXDOMAIN). -/
def rcodeNXDOMAIN : Nat := 3

/-- DNS rcode numeric constant for SERVFAIL. -/
def rcodeSERVFAIL : Nat := 2

/-- Result object of `lookupSingleRblWithCache`: a lookup result plus the
`fromCache` flag; `cachedAt`/`expiresAt` are present only on cache hits. -/
structure LookupResult where
  name : String
  host : List Char
  description : String
  listed : Option Bool
  response : Option RespVal
  responseTime : Nat
  error : Option String
  ttl : Nat
  fromCache : Bool
  cachedAt : Option Nat
  expiresAt : Option Nat
deriving DecidableEq

/-- An answer record pushed onto the DNS response. -/
inductive DnsAnswer where
  | a (name : List Char) (address : String) (ttl : Nat)
  | txt (name : List Char) (data : String) (ttl : Nat)
deriving DecidableEq

/-- The header flags, rcode and answer section of a built response. -/
structure AggResponse where
  qr : Bool
  aa : Bool
  ra : Bool
  rcode : Nat
  answers : List DnsAnswer
deriving DecidableEq

/-- The summary TXT payload of an aggregate response. -/
def aggSummary (listedCount completedCount totalCount elapsed : Nat) : String :=
  "Listed on " ++ toString listedCount ++ "/" ++ toString completedCount
    ++ " RBLs (" ++ toString completedCount ++ "/" ++ toString totalCount
    ++ " checked in " ++ toString elapsed ++ "ms)"

/-- The overflow TXT payload when more than five RBLs list the IP. -/
def aggOverflow (listedLen : Nat) : String :=
  "... and " ++ toString (listedLen - 5) ++ " more (5/" ++ toString listedLen
    ++ " shown)"

/-- The response-building tail of `performMultiRblLookup`, as a function of
the results completed by the deadline. `results` are the non-null completed
results, `totalCount` the size of the RBL set for the zone. JS truthiness
of `r.listed` is `listed == some true`. -/
def buildAggregateResponse (results : List LookupResult) (queryName : List Char)
    (queryType : Nat) (elapsed totalCount : Nat) : AggResponse :=
  let completedCount := results.length
  let listedCount := (results.filter fun r => r.listed == some true).length
  if 0 < listedCount then
    if queryType = qtypeTXT then
      let listedResults := results.filter fun r => r.listed == some true
      let summary := aggSummary listedCount completedCount totalCount elapsed
      let perRbl := (listedResults.take 5).map fun r =>
        DnsAnswer.txt queryName (r.name ++ (": LISTED")) 300
      let overflow :=
        if 5 < listedResults.length then
          [DnsAnswer.txt queryName (aggOverflow listedResults.length) 300]
        else []
      { qr := true, aa := true, ra := false, rcode := rcodeNOERROR,
        answers := DnsAnswer.txt queryName summary 300 :: perRbl ++ overflow }
    else
      { qr := true, aa := true, ra := false, rcode := rcodeNOERROR,
        answers := [DnsAnswer.a queryName ("127.0.0.2") 300] }
  else
    { qr := true, aa := true, ra := false, rcode := rcodeNXDOMAIN, answers := [] }

/-! ## Theorems for C1 -/

/-- C1 counterexample: with a single returned A record that reports TTL 0,
the claimed TTL is `max(0, 1) = 1` but `lookupSingleRbl` computes
`0 || 3600 = 3600`, so the claim's TTL formula does not hold. -/
theorem c1_counterexample :
    (lookupSingleRbl ⟨"Example RBL", "bl.example.org".toList, "desc"⟩
        (.ok [⟨"127.0.0.2", some 0⟩]) 5).ttl
      ≠ specClaimTtl [⟨"127.0.0.2", some 0⟩] := by
  decide

/-- C1 (amended): a non-empty upstream A answer whose first record has a
non-empty address yields `Listed` with `response` the first record's
address and `ttl` the first record's TTL when reported and non-zero, 3600 s
otherwise; `ENOTFOUND`/`ENODATA` yields `NotListed` with `ttl = 3600`; any
other failure yields the error classification with `ttl = 300`. -/
theorem c1_lookupSingleRbl_classification (rbl : RblServer) (rt : Nat) :
    (∀ (r : A4Record) (rest : List A4Record), r.address ≠ "" →
      lookupSingleRbl rbl (.ok (r :: rest)) rt =
        { name := rbl.name, host := rbl.host, description := rbl.description,
          listed := some true, response := some (.str r.address), responseTime := rt,
          error := none,
          ttl := match r.ttl with
                 | some t => if t = 0 then 3600 else t
                 | none => 3600 }) ∧
    (∀ e : DnsError, e.code = some ("ENOTFOUND") ∨ e.code = some ("ENODATA") →
      lookupSingleRbl rbl (.err e) rt =
        { name := rbl.name, host := rbl.host, description := rbl.description,
          listed := some false, response := none, responseTime := rt,
          error := none, ttl := 3600 }) ∧
    (∀ e : DnsError, ¬(e.code = some ("ENOTFOUND") ∨ e.code = some ("ENODATA")) →
      lookupSingleRbl rbl (.err e) rt =
        { name := rbl.name, host := rbl.host, description := rbl.description,
          listed := none, response := none, responseTime := rt,
          error := some e.message, ttl := 300 }) := by
  refine ⟨?_, ?_, ?_⟩
  · intro r rest h
    simp [lookupSingleRbl, h]
  · intro e h
    simp [lookupSingleRbl, h]
  · intro e h
    simp [lookupSingleRbl, h]

/-- Witness for the amended C1 theorem at a concrete listed answer. -/
theorem c1_lookupSingleRbl_classification_witness :
    lookupSingleRbl ⟨"Example RBL", "bl.example.org".toList, "desc"⟩
        (.ok [⟨"127.0.0.2", some 900⟩]) 7 =
      { name := "Example RBL", host := "bl.example.org".toList, description := "desc",
        listed := some true, response := some (.str ("127.0.0.2")), responseTime := 7,
        error := none, ttl := 900 } :=
  (c1_lookupSingleRbl_classification
    ⟨"Example RBL", "bl.example.org".toList, "desc"⟩ 7).1
    ⟨"127.0.0.2", some 900⟩ [] (by decide)

/-! ## Theorems for C2 -/

/-- C2: in `performMultiRblLookup`, when at least one completed result is
listed, an A query is answered NOERROR with exactly one A record `127.0.0.2`
of TTL 300, and a TXT query with one summary record, one record per listed
RBL capped at five, plus one overflow record when more than five are
listed; with no listed result the response is NXDOMAIN with no answers. -/
theorem c2_buildAggregateResponse (results : List LookupResult)
    (queryName : List Char) (queryType elapsed totalCount : Nat) :
    (0 < (results.filter fun r => r.listed == some true).length →
      queryType = qtypeA →
      buildAggregateResponse results queryName queryType elapsed totalCount =
        { qr := true, aa := true, ra := false, rcode := rcodeNOERROR,
          answers := [DnsAnswer.a queryName ("127.0.0.2") 300] }) ∧
    (0 < (results.filter fun r => r.listed == some true).length →
      queryType = qtypeTXT →
      buildAggregateResponse results queryName queryType elapsed totalCount =
        { qr := true, aa := true, ra := false, rcode := rcodeNOERROR,
          answers :=
            DnsAnswer.txt queryName
                (aggSummary (results.filter fun r => r.listed == some true).length
                  results.length totalCount elapsed) 300
              :: ((results.filter fun r => r.listed == some true).take 5).map
                  (fun r => DnsAnswer.txt queryName (r.name ++ (": LISTED")) 300)
              ++ (if 5 < (results.filter fun r => r.listed == some true).length then
                    [DnsAnswer.txt queryName
                      (aggOverflow (results.filter fun r => r.listed == some true).length) 300]
                  else []) } ∧
      (buildAggregateResponse results queryName queryType elapsed totalCount).answers.length =
        1 + min (results.filter fun r => r.listed == some true).length 5
          + (if 5 < (results.filter fun r => r.listed == some true).length then 1 else 0)) ∧
    ((results.filter fun r => r.listed == some true).length = 0 →
      buildAggregateResponse results queryName queryType elapsed totalCount =
        { qr := true, aa := true, ra := false, rcode := rcodeNXDOMAIN,
          answers := [] }) := by
  refine ⟨?_, ?_, ?_⟩
  · intro hpos hq
    subst hq
    simp [buildAggregateResponse, hpos, qtypeA, qtypeTXT]
  · intro hpos hq
    subst hq
    refine ⟨?_, ?_⟩
    · simp [buildAggregateResponse, hpos]
    · simp only [buildAggregateResponse, hpos, if_pos, if_true, reduceIte,
        List.length_cons, List.length_append, List.length_map, List.length_take]
      split <;>
        simp [Nat.min_comm, Nat.add_comm, Nat.add_assoc, Nat.add_left_comm]
  · intro hzero
    simp [buildAggregateResponse, hzero]

/-- Witness for the C2 theorem: one listed result, A query. -/
theorem c2_buildAggregateResponse_witness :
    buildAggregateResponse
        [{ name := "Spamhaus ZEN", host := "zen.spamhaus.org".toList,
           description := "d", listed := some true,
           response := some (.str ("127.0.0.2")), responseTime := 12,
           error := none, ttl := 900, fromCache := false,
           cachedAt := none, expiresAt := none }]
        ("2.0.0.127.multi.example.com".toList) qtypeA 40 3 =
      { qr := true, aa := true, ra := false, rcode := rcodeNOERROR,
        answers := [DnsAnswer.a ("2.0.0.127.multi.example.com".toList) ("127.0.0.2") 300] } :=
  (c2_buildAggregateResponse
      [{ name := "Spamhaus ZEN", host := "zen.spamhaus.org".toList,
         description := "d", listed := some true,
         response := some (.str ("127.0.0.2")), responseTime := 12,
         error := none, ttl := 900, fromCache := false,
         cachedAt := none, expiresAt := none }]
      ("2.0.0.127.multi.example.com".toList) qtypeA 40 3).1 (by decide) rfl

/-! ## Request routing (dns-server.js `init` and `handleQuery`) -/

/-- A multi-RBL zone configuration entry, reduced to the one field the
request router inspects. -/
structure MultiRblZone where
  domain : List Char
deriving DecidableEq

/-- The classification `handleQuery` assigns to a query. -/
inductive Route where
  | aggregate (domain : List Char) (ip : List Char)
  | custom (host : List Char) (ip : List Char)
  | single (host : List Char) (ip : List Char)
  | forward
deriving DecidableEq

/-- Key insertion into a JS object: assigning an existing key keeps its
original position, a new key is appended (all RBL hosts contain dots, so
none is an integer-like key). -/
def insertKey (ks : List (List Char)) (k : List Char) : List (List Char) :=
  if ks.contains k then ks else ks ++ [k]

/-- Key order of `Object.keys(this.rblServers)` after `init`: the configured servers'
hosts in file order (`reduce` insertion), then the custom RBL zone name
when configured. -/
def rblServerKeys (servers : List RblServer) (customZone : Option (List Char)) :
    List (List Char) :=
  let base := servers.foldl (fun ks s => insertKey ks s.host) []
  match customZone with
  | some z => insertKey base z
  | none => base

/-- The single-RBL / forward tail of `handleQuery`: non-A queries are
forwarded; otherwise the first host in key order whose `"." + host` suffix
matches is selected, its prefix parsed as a reversed IPv4; a parse failure
forwards; the custom zone name routes to the custom RBL. -/
def classifyRblOrForward (servers : List RblServer) (customZone : Option (List Char))
    (queryName : List Char) (queryType : Nat) : Route :=
  if queryType ≠ qtypeA then .forward
  else
    match (rblServerKeys servers customZone).find?
        (fun h => jsEndsWith queryName ('.' :: h)) with
    | some h =>
      match parseReverseIp queryName h with
      | some ip => if customZone = some h then .custom h ip else .single h ip
      | none => .forward
    | none => .forward

/-- The request router of `handleQuery`: the first multi-RBL zone whose
`"." + domain` suffix matches is tried first; if its prefix parses as a
reversed IPv4 the query is aggregate, otherwise (and when no zone matches)
the single-RBL / forward tail runs. -/
def classifyQuery (zones : List MultiRblZone) (servers : List RblServer)
    (customZone : Option (List Char)) (queryName : List Char) (queryType : Nat) :
    Route :=
  match zones.find? (fun z => jsEndsWith queryName ('.' :: z.domain)) with
  | some z =>
    match parseMultiRblIp queryName z.domain with
    | some ip => .aggregate z.domain ip
    | none => classifyRblOrForward servers customZone queryName queryType
  | none => classifyRblOrForward servers customZone queryName queryType

/-- Lemma: `List.find?` returns the head of the first satisfying suffix. -/
theorem find?_eq_of_prefix_false {α : Type} (p : α → Bool) (pre : List α) (x : α)
    (post : List α) (hpre : ∀ a ∈ pre, p a = false) (hx : p x = true) :
    (pre ++ x :: post).find? p = some x := by
  induction pre with
  | nil => simp [List.find?, hx]
  | cons a pre ih =>
    have ha : p a = false := hpre a (by simp)
    simp only [List.cons_append, List.find?, ha]
    exact ih fun b hb => hpre b (by simp [hb])

/-! ## Theorems for C3 -/

/-- C3 counterexample: with single-RBL hosts configured as
`["b.ex", "1.b.ex"]`, the query `4.3.2.1.b.ex` suffix-matches both, and the
router queries the first host `b.ex` (with IP `1.2.3.4`) even though
`1.b.ex` is a strictly longer matching zone suffix — routing is first-match
in key order, not longest-suffix. -/
theorem c3_counterexample :
    classifyQuery []
        [⟨"B", "b.ex".toList, "d"⟩, ⟨"One", "1.b.ex".toList, "d"⟩] none
        ("4.3.2.1.b.ex".toList) qtypeA
      = .single ("b.ex".toList) ("1.2.3.4".toList) ∧
    jsEndsWith ("4.3.2.1.b.ex".toList) ('.' :: "1.b.ex".toList) = true ∧
    ("b.ex".toList).length < ("1.b.ex".toList).length ∧
    Route.single ("b.ex".toList) ("1.2.3.4".toList)
      ≠ Route.single ("1.b.ex".toList) ("1.2.3.4".toList) := by
  refine ⟨by decide, by decide, by decide, by decide⟩

/-- C3 (amended): the router is first-match in configuration order, not
longest-suffix. The first suffix-matching multi-RBL zone whose prefix
parses wins and takes precedence over everything; when no zone matches,
non-A queries are forwarded; A queries go to the first suffix-matching RBL
host in key order (configured servers in file order, the custom zone name
last), routed as custom exactly when that host is the custom zone; a parse
failure of the selected host's prefix forwards without backtracking; and
when the first matching zone's prefix fails to parse the router falls
through to the single-RBL / forward tail. -/
theorem c3_classifyQuery_first_match (zones : List MultiRblZone)
    (servers : List RblServer) (customZone : Option (List Char))
    (queryName : List Char) (queryType : Nat) :
    (∀ pre z post ip, zones = pre ++ z :: post →
      (∀ z' ∈ pre, jsEndsWith queryName ('.' :: z'.domain) = false) →
      jsEndsWith queryName ('.' :: z.domain) = true →
      parseMultiRblIp queryName z.domain = some ip →
      classifyQuery zones servers customZone queryName queryType =
        .aggregate z.domain ip) ∧
    ((∀ z ∈ zones, jsEndsWith queryName ('.' :: z.domain) = false) →
      queryType ≠ qtypeA →
      classifyQuery zones servers customZone queryName queryType = .forward) ∧
    ((∀ z ∈ zones, jsEndsWith queryName ('.' :: z.domain) = false) →
      ∀ pre h post, rblServerKeys servers customZone = pre ++ h :: post →
        (∀ h' ∈ pre, jsEndsWith queryName ('.' :: h') = false) →
        jsEndsWith queryName ('.' :: h) = true →
        (∀ ip, parseReverseIp queryName h = some ip →
          classifyQuery zones servers customZone queryName qtypeA =
            (if customZone = some h then .custom h ip else .single h ip)) ∧
        (parseReverseIp queryName h = none →
          classifyQuery zones servers customZone queryName qtypeA = .forward)) ∧
    (∀ z, zones.find? (fun z => jsEndsWith queryName ('.' :: z.domain)) = some z →
      parseMultiRblIp queryName z.domain = none →
      classifyQuery zones servers customZone queryName queryType =
        classifyRblOrForward servers customZone queryName queryType) := by
  refine ⟨?_, ?_, ?_, ?_⟩
  · intro pre z post ip hz hpre hzmatch hparse
    subst hz
    unfold classifyQuery
    rw [find?_eq_of_prefix_false _ pre z post
      (fun a ha => hpre a ha) hzmatch]
    simp [hparse]
  · intro hnone hqt
    unfold classifyQuery
    rw [List.find?_eq_none.mpr (fun z hz => by simp [hnone z hz])]
    unfold classifyRblOrForward
    rw [if_pos hqt]
  · intro hnone pre h post hkeys hpre hmatch
    have hfind : (rblServerKeys servers customZone).find?
        (fun h => jsEndsWith queryName ('.' :: h)) = some h := by
      rw [hkeys]
      exact find?_eq_of_prefix_false _ pre h post (fun a ha => hpre a ha) hmatch
    constructor
    · intro ip hip
      unfold classifyQuery
      rw [List.find?_eq_none.mpr (fun z hz => by simp [hnone z hz])]
      unfold classifyRblOrForward
      rw [if_neg (by simp [qtypeA]), hfind]
      simp [hip]
    · intro hip
      unfold classifyQuery
      rw [List.find?_eq_none.mpr (fun z hz => by simp [hnone z hz])]
      unfold classifyRblOrForward
      rw [if_neg (by simp [qtypeA]), hfind]
      simp [hip]
  · intro z hz hparse
    unfold classifyQuery
    rw [hz]
    simp [hparse]

/-- Witness for the amended C3 theorem: the first matching host in key
order is routed as a single-RBL query. -/
theorem c3_classifyQuery_first_match_witness :
    classifyQuery []
        [⟨"B", "b.ex".toList, "d"⟩, ⟨"One", "1.b.ex".toList, "d"⟩] none
        ("4.3.2.1.b.ex".toList) qtypeA
      = .single ("b.ex".toList) ("1.2.3.4".toList) := by
  have h := ((c3_classifyQuery_first_match []
      [⟨"B", "b.ex".toList, "d"⟩, ⟨"One", "1.b.ex".toList, "d"⟩] none
      ("4.3.2.1.b.ex".toList) qtypeA).2.2.1
    (by intro z hz; cases hz)
    [] ("b.ex".toList) ["1.b.ex".toList] (by decide) (by intro h' hh'; cases hh')
    (by decide)).1 ("1.2.3.4".toList) (by decide)
  simpa using h

/-! ## Canonical IP values (Postgres `inet`) -/

/-- A canonical IP value as held by a Postgres `inet`-typed column:
address family plus numeric address. -/
structure Inet where
  v6 : Bool
  addr : Nat
deriving DecidableEq

/-- The numeric value of one parsed decimal octet, `none` outside
`[0, 255]` or for a non-digit string. -/
def parseOctet (cs : List Char) : Option Nat :=
  match cs with
  | [] => none
  | _ =>
    if cs.all Char.isDigit then
      if digitsVal cs ≤ 255 then some (digitsVal cs) else none
    else none

/-- Modelled from the spec: the `::inet` cast used by cache-db.js for keys
and responses lives in Postgres, outside the sources; the spec requires the
key IP to be "stored and compared in a canonical form" so that "two lexical
representations of the same address MUST collide". Modelled for IPv4 as
decimal dotted-quad parsing; unmodelled forms (IPv6 and malformed input)
map to `none`, a cast failure. -/
def canonIp (ip : String) : Option Inet :=
  match jsSplitOn '.' ip.toList with
  | [a, b, c, d] =>
    match parseOctet a, parseOctet b, parseOctet c, parseOctet d with
    | some x, some y, some z, some w =>
      some ⟨false, ((x * 256 + y) * 256 + z) * 256 + w⟩
    | _, _, _, _ => none
  | _ => none

/-- The text Postgres `host(ip)` renders for a (v4) canonical value. -/
def showInet (i : Inet) : String :=
  toString (i.addr / 16777216 % 256) ++ "." ++ toString (i.addr / 65536 % 256)
    ++ "." ++ toString (i.addr / 256 % 256) ++ "." ++ toString (i.addr % 256)

/-! ## Two-tier cache (cache-db.js) with the memcache client of
memcache.js (the `MemcacheClient` source appears concatenated inside
test-dns.php) -/

/-- The `cacheData` object written to both tiers and returned by reads
(cache-db.js). The L1 tier stores it JSON-serialised; the roundtrip is
value-preserving on this shape. The `fromCache`/`cacheSource` properties a
backfill may store are always overridden on return and are omitted. -/
structure CacheData where
  ip : String
  rblHost : String
  listed : Bool
  response : Option RespVal
  error : Option String
  ttl : Nat
  cachedAt : Nat
  expiresAt : Nat
deriving DecidableEq

/-- One entry held by the memcached daemon for this client: the stored
object and the expiry instant the daemon enforces for the `expires: ttl`
option given by `MemcacheClient.set` (`none` for `expires: 0`, which
memcached treats as no expiry). The daemon and the memjs client are
external dependencies, modelled by their documented semantics. -/
structure L1Entry where
  data : CacheData
  memExpiresAt : Option Nat
deriving DecidableEq

/-- One row of the `rbl_cache` relation (ip and response are
`inet`-typed). -/
structure L2Row where
  ip : Inet
  rblHost : String
  listed : Bool
  response : Option Inet
  error : Option String
  ttl : Nat
  cachedAt : Nat
  expiresAt : Nat
deriving DecidableEq

/-- The state of the two cache tiers; L1 is addressed by the string keys
`MemcacheClient.generateKey` produces. -/
structure CacheState where
  l1 : List (String × L1Entry)
  l2 : List L2Row
deriving DecidableEq

/-- The environment of one cache operation: the `MEMCACHE_ENABLED` switch
(false when the variable is unset, the default) and failure injections for
the raw memjs `get`/`delete`/`set` calls and the Postgres query. -/
structure Env where
  memEnabled : Bool
  memGetErr : Bool
  memDelErr : Bool
  memSetErr : Bool
  pgErr : Bool
deriving DecidableEq

/-- Memcache enabled, no faults. -/
def stdEnv : Env := ⟨true, false, false, false, false⟩

/-- The default deployment: `MEMCACHE_ENABLED` unset, no faults. -/
def noL1Env : Env := ⟨false, false, false, false, false⟩

/-- The method `generateKey` of `MemcacheClient`. -/
def generateKey (ip rblHost : String) : String :=
  "rbl:" ++ ip ++ ":" ++ rblHost

/-- The memcached-side lookup behind `client.get`: the daemon returns the
stored value only while its own expiry has not passed. -/
def clientLookup (l1 : List (String × L1Entry)) (key : String) (now : Nat) :
    Option CacheData :=
  match l1.find? (fun e => decide (e.1 = key)) with
  | some e =>
    match e.2.memExpiresAt with
    | none => some e.2.data
    | some exp => if now < exp then some e.2.data else none
  | none => none

/-- The memcached-side store behind `client.set` with `expires: ttl`:
replaces the key; a ttl of 0 means no daemon-side expiry. -/
def clientStore (l1 : List (String × L1Entry)) (key : String)
    (data : CacheData) (ttl now : Nat) : List (String × L1Entry) :=
  (key, ⟨data, if ttl = 0 then none else some (now + ttl)⟩) ::
    l1.filter (fun e => !(decide (e.1 = key)))

/-- The memcached-side delete behind `client.delete`. -/
def clientDelete (l1 : List (String × L1Entry)) (key : String) :
    List (String × L1Entry) :=
  l1.filter (fun e => !(decide (e.1 = key)))

/-- Raw `client.get` as a promise: rejects under the injected fault. -/
def clientGetE (env : Env) (l1 : List (String × L1Entry)) (key : String)
    (now : Nat) : Except Unit (Option CacheData) :=
  if env.memGetErr then .error () else .ok (clientLookup l1 key now)

/-- Raw `client.delete` as a promise: rejects under the injected fault. -/
def clientDeleteE (env : Env) (l1 : List (String × L1Entry)) (key : String) :
    Except Unit (List (String × L1Entry)) :=
  if env.memDelErr then .error () else .ok (clientDelete l1 key)

/-- Raw `client.set` as a promise: rejects under the injected fault. -/
def clientSetE (env : Env) (l1 : List (String × L1Entry)) (key : String)
    (data : CacheData) (ttl now : Nat) :
    Except Unit (List (String × L1Entry)) :=
  if env.memSetErr then .error () else .ok (clientStore l1 key data ttl now)

/-- The method `get` of `MemcacheClient` (memcache.js): `null` when the
client is disabled; the raw get, the JSON parse, the stored-expiry check
and the delete of an expired entry all sit in one try/catch whose handler
returns `null`, so the call never rejects. A stored object whose truthy
`expiresAt` has passed is deleted and reported as a miss; a falsy
`expiresAt` of 0 skips the check (JS `result.expiresAt &&`). Returns the
result together with the resulting daemon state. -/
def memGet (env : Env) (l1 : List (String × L1Entry)) (ip rblHost : String)
    (now : Nat) : Option CacheData × List (String × L1Entry) :=
  if ¬ env.memEnabled then (none, l1)
  else
    match clientGetE env l1 (generateKey ip rblHost) now with
    | .error _ => (none, l1)
    | .ok none => (none, l1)
    | .ok (some result) =>
      if result.expiresAt ≠ 0 ∧ result.expiresAt ≤ now then
        match clientDeleteE env l1 (generateKey ip rblHost) with
        | .error _ => (none, l1)
        | .ok l1' => (none, l1')
      else (some result, l1)

/-- The method `set` of `MemcacheClient` (memcache.js): `false` when the
client is disabled; the raw set sits in a try/catch returning `false`, so
the call never rejects. -/
def memSet (env : Env) (l1 : List (String × L1Entry)) (ip rblHost : String)
    (data : CacheData) (ttl now : Nat) : Bool × List (String × L1Entry) :=
  if ¬ env.memEnabled then (false, l1)
  else
    match clientSetE env l1 (generateKey ip rblHost) data ttl now with
    | .error _ => (false, l1)
    | .ok l1' => (true, l1')

/-- Which tier served a cached read (`cacheSource`). -/
inductive CacheSource where
  | memcache
  | postgres
deriving DecidableEq

/-- The object `getCached` returns on a hit: the stored data spread
together with `fromCache: true` and the serving tier. -/
structure GetResult where
  data : CacheData
  fromCache : Bool
  source : CacheSource
deriving DecidableEq

/-- The `cacheData` object the L2 branch of `getCached` builds from a row:
`host(ip)`/`host(response)` render the `inet` values as text. -/
def rowToData (row : L2Row) : CacheData :=
  { ip := showInet row.ip, rblHost := row.rblHost, listed := row.listed,
    response := row.response.map (fun r => .str (showInet r)), error := row.error,
    ttl := row.ttl, cachedAt := row.cachedAt, expiresAt := row.expiresAt }

/-- The Postgres select of `getCached` as a promise: rejects on a
connection fault or a failing `::inet` cast of the key. -/
def pgSelectE (env : Env) (l2 : List L2Row) (ip rblHost : String) (now : Nat) :
    Except Unit (Option L2Row) :=
  if env.pgErr then .error ()
  else
    match canonIp ip with
    | none => .error ()
    | some cip =>
      .ok (l2.find? (fun row =>
        decide (row.ip = cip ∧ row.rblHost = rblHost ∧ now < row.expiresAt)))

/-- Function `getCached` from cache-db.js. The L1 read sits in a try/catch
whose handler falls through to L2, but `MemcacheClient.get` never rejects;
the L2 select (`expires_at > now` in the WHERE clause), the building of
`cacheData` and the L1 backfill with `remainingTtl = expires_at − now` sit
in a second try/catch whose handler returns `null` — only the select can
reject there, since `MemcacheClient.set` resolves with `false` on failure.
Returns the result and the resulting cache state. -/
def getCached (s : CacheState) (ip rblHost : String) (now : Nat) (env : Env) :
    Option GetResult × CacheState :=
  let p := memGet env s.l1 ip rblHost now
  match p.1 with
  | some d => (some ⟨d, true, .memcache⟩, ⟨p.2, s.l2⟩)
  | none =>
    match pgSelectE env s.l2 ip rblHost now with
    | .error _ => (none, ⟨p.2, s.l2⟩)
    | .ok none => (none, ⟨p.2, s.l2⟩)
    | .ok (some row) =>
      let d := rowToData row
      let remainingTtl := row.expiresAt - now
      if 0 < remainingTtl then
        (some ⟨d, true, .postgres⟩,
         ⟨(memSet env p.2 ip rblHost d remainingTtl now).2, s.l2⟩)
      else (some ⟨d, true, .postgres⟩, ⟨p.2, s.l2⟩)

/-- The upsert `INSERT ... ON CONFLICT(ip, rbl_host) DO UPDATE`: replace
the row with the conflicting key, else append. -/
def l2upsert (l2 : List L2Row) (row : L2Row) : List L2Row :=
  if l2.any (fun r => decide (r.ip = row.ip ∧ r.rblHost = row.rblHost)) then
    l2.map (fun r => if r.ip = row.ip ∧ r.rblHost = row.rblHost then row else r)
  else l2 ++ [row]

/-- The Postgres upsert of `cache` as a promise: rejects on a connection
fault or a failing `::inet` cast of the key or of a non-address `response`
value. -/
def pgUpsertE (env : Env) (l2 : List L2Row) (ip rblHost : String)
    (listed : Bool) (response : Option RespVal) (error : Option String)
    (ttl now : Nat) : Except Unit (List L2Row) :=
  if env.pgErr then .error ()
  else
    match canonIp ip with
    | none => .error ()
    | some cip =>
      match response with
      | some (.str r) =>
        match canonIp r with
        | some cr =>
          .ok (l2upsert l2 ⟨cip, rblHost, listed, some cr, error, ttl, now, now + ttl⟩)
        | none => .error ()
      | some (.obj _) => .error ()
      | none =>
        .ok (l2upsert l2 ⟨cip, rblHost, listed, none, error, ttl, now, now + ttl⟩)

/-- Function `cache` from cache-db.js: build `cacheData` with
`expiresAt = now + ttl`; fire-and-forget `MemcacheClient.set`, which never
rejects (a failure only resolves to `false`, so the attached `.catch` is
dead code) and is a no-op when the client is disabled; the L2 upsert sits
in a try/catch, so a connection failure or a failing `::inet` cast of the
key or of a non-address `response` value leaves the durable tier
unchanged. -/
def cache (s : CacheState) (ip rblHost : String) (listed : Bool)
    (response : Option RespVal) (error : Option String) (ttl now : Nat)
    (env : Env) : CacheState :=
  let cacheData : CacheData :=
    { ip := ip, rblHost := rblHost, listed := listed, response := response,
      error := error, ttl := ttl, cachedAt := now, expiresAt := now + ttl }
  let l1' := (memSet env s.l1 ip rblHost cacheData ttl now).2
  let l2' :=
    match pgUpsertE env s.l2 ip rblHost listed response error ttl now with
    | .ok l2' => l2'
    | .error _ => s.l2
  ⟨l1', l2'⟩

/-- Function `clearIp` from cache-db.js:
`DELETE FROM rbl_cache WHERE ip = $1::inet` — only the durable tier is
touched; the code comments that memcache entries are left to expire
naturally. -/
def clearIp (s : CacheState) (ip : String) (env : Env) : CacheState :=
  if env.pgErr then s
  else
    match canonIp ip with
    | none => s
    | some cip => { s with l2 := s.l2.filter (fun r => !(decide (r.ip = cip))) }

/-- Distinctness of durable keys, the `UNIQUE(ip, rbl_host)` constraint of
the `rbl_cache` relation. -/
def L2KeysUnique (l2 : List L2Row) : Prop :=
  (l2.map (fun r => (r.ip, r.rblHost))).Nodup

/-! ## Cache lemmas -/

/-- A memcached-level hit exhibits a stored entry with the key. -/
theorem clientLookup_eq_some (l1 : List (String × L1Entry)) (key : String)
    (now : Nat) (d : CacheData) (h : clientLookup l1 key now = some d) :
    ∃ e ∈ l1, e.2.data = d := by
  unfold clientLookup at h
  cases hf : l1.find? (fun e => decide (e.1 = key)) with
  | none => rw [hf] at h; cases h
  | some e =>
    rw [hf] at h
    change (match e.2.memExpiresAt with
      | none => some e.2.data
      | some exp => if now < exp then some e.2.data else none) = some d at h
    have hmem := List.mem_of_find?_eq_some hf
    cases hexp : e.2.memExpiresAt with
    | none =>
      rw [hexp] at h
      exact ⟨e, hmem, Option.some.inj h⟩
    | some exp =>
      rw [hexp] at h
      change (if now < exp then some e.2.data else none) = some d at h
      by_cases hlt : now < exp
      · rw [if_pos hlt] at h
        exact ⟨e, hmem, Option.some.inj h⟩
      · rw [if_neg hlt] at h
        cases h

/-- `MemcacheClient.get` returns only stored values whose own `expiresAt`
has not passed (or is the falsy 0 that skips the check). -/
theorem memGet_eq_some (env : Env) (l1 : List (String × L1Entry))
    (ip rblHost : String) (now : Nat) (d : CacheData)
    (l1' : List (String × L1Entry))
    (h : memGet env l1 ip rblHost now = (some d, l1')) :
    (∃ e ∈ l1, e.2.data = d) ∧ (d.expiresAt = 0 ∨ now < d.expiresAt) := by
  unfold memGet clientGetE at h
  by_cases he : env.memEnabled
  · rw [if_neg (by simp [he])] at h
    by_cases hg : env.memGetErr
    · rw [if_pos hg] at h
      simp at h
    · rw [if_neg hg] at h
      cases hcl : clientLookup l1 (generateKey ip rblHost) now with
      | none =>
        rw [hcl] at h
        simp at h
      | some result =>
        rw [hcl] at h
        change (if result.expiresAt ≠ 0 ∧ result.expiresAt ≤ now then
            match clientDeleteE env l1 (generateKey ip rblHost) with
            | .error _ => ((none : Option CacheData), l1)
            | .ok l1x => (none, l1x)
          else (some result, l1)) = (some d, l1') at h
        by_cases hc : result.expiresAt ≠ 0 ∧ result.expiresAt ≤ now
        · rw [if_pos hc] at h
          rcases hdel : clientDeleteE env l1 (generateKey ip rblHost) with e | l1x <;>
            rw [hdel] at h <;> simp at h
        · rw [if_neg hc] at h
          have hd : some result = some d := congrArg Prod.fst h
          cases Option.some.inj hd
          refine ⟨clientLookup_eq_some _ _ _ _ hcl, ?_⟩
          by_cases hz : d.expiresAt = 0
          · exact Or.inl hz
          · refine Or.inr ?_
            rcases Nat.lt_or_ge now d.expiresAt with hlt | hge
            · exact hlt
            · exact absurd ⟨hz, hge⟩ hc
  · rw [if_pos he] at h
    simp at h

/-- Reading back the key just written through `MemcacheClient.set`
(enabled, fault-free) returns the written object while the write's TTL has
not elapsed. -/
theorem memGet_memSet_same (l1 : List (String × L1Entry)) (ip rblHost : String)
    (d : CacheData) (ttl now t : Nat) (ht : t < now + ttl)
    (hexp : d.expiresAt = now + ttl) :
    memGet stdEnv (memSet stdEnv l1 ip rblHost d ttl now).2 ip rblHost t
      = (some d, (memSet stdEnv l1 ip rblHost d ttl now).2) := by
  have hset : (memSet stdEnv l1 ip rblHost d ttl now).2
      = clientStore l1 (generateKey ip rblHost) d ttl now := rfl
  have hlook : clientLookup (clientStore l1 (generateKey ip rblHost) d ttl now)
      (generateKey ip rblHost) t = some d := by
    unfold clientLookup clientStore
    rw [List.find?_cons_of_pos _ (by simp)]
    by_cases h0 : ttl = 0 <;> simp [h0, ht]
  have hcond : ¬ (d.expiresAt ≠ 0 ∧ d.expiresAt ≤ t) := by
    rintro ⟨-, hle⟩
    rw [hexp] at hle
    omega
  unfold memGet clientGetE
  rw [if_neg (by decide), if_neg (by decide), hset, hlook]
  dsimp only
  rw [if_neg hcond]

/-- With unique durable keys, the select of `getCached` finds exactly the
unexpired row stored under the key. -/
theorem l2_find?_of_unique (l2 : List L2Row) (row : L2Row) (cip : Inet)
    (rblHost : String) (now : Nat) (hmem : row ∈ l2) (hu : L2KeysUnique l2)
    (hip : row.ip = cip) (hhost : row.rblHost = rblHost)
    (hexp : now < row.expiresAt) :
    l2.find? (fun r => decide (r.ip = cip ∧ r.rblHost = rblHost ∧ now < r.expiresAt))
      = some row := by
  induction l2 with
  | nil => cases hmem
  | cons a t ih =>
    have hu' : L2KeysUnique t := by
      have := hu
      unfold L2KeysUnique at this ⊢
      simp only [List.map_cons, List.nodup_cons] at this
      exact this.2
    by_cases hpa : a.ip = cip ∧ a.rblHost = rblHost ∧ now < a.expiresAt
    · rw [List.find?_cons_of_pos _ (by simpa using hpa)]
      rcases List.mem_cons.mp hmem with h | h
    -- `row` is the head, or its key would duplicate the head's key
      · rw [h]
      · exfalso
        unfold L2KeysUnique at hu
        simp only [List.map_cons, List.nodup_cons] at hu
        exact hu.1 (by
          have : (row.ip, row.rblHost) = (a.ip, a.rblHost) := by
            rw [hip, hhost, hpa.1, hpa.2.1]
          rw [← this]
          exact List.mem_map_of_mem _ h)
    · rw [List.find?_cons_of_neg _ (by simpa using hpa)]
      rcases List.mem_cons.mp hmem with h | h
      · exact absurd ⟨h ▸ hip, h ▸ hhost, h ▸ hexp⟩ hpa
      · exact ih h hu'

/-- Computation of `getCached` on a fast-tier hit. -/
theorem getCached_l1_hit (s : CacheState) (ip rblHost : String) (now : Nat)
    (env : Env) (d : CacheData) (l1a : List (String × L1Entry))
    (h : memGet env s.l1 ip rblHost now = (some d, l1a)) :
    getCached s ip rblHost now env
      = (some ⟨d, true, .memcache⟩, ⟨l1a, s.l2⟩) := by
  unfold getCached
  rw [h]

/-- Computation of `getCached` on a double miss: no live fast-tier value
and no unexpired durable row under the key. -/
theorem getCached_l2_miss (s : CacheState) (ip rblHost : String) (now : Nat)
    (env : Env) (l1a : List (String × L1Entry)) (cip : Inet)
    (hmiss : memGet env s.l1 ip rblHost now = (none, l1a))
    (hpg : env.pgErr = false)
    (hcanon : canonIp ip = some cip)
    (hfind : s.l2.find? (fun row =>
        decide (row.ip = cip ∧ row.rblHost = rblHost ∧ now < row.expiresAt))
      = none) :
    getCached s ip rblHost now env = (none, ⟨l1a, s.l2⟩) := by
  unfold getCached pgSelectE
  rw [hmiss, if_neg (by simp [hpg]), hcanon]
  dsimp only
  rw [hfind]

/-- Computation of `getCached` on a fast-tier miss with an unexpired
durable row: the row is returned and backfilled through
`MemcacheClient.set` with the remaining TTL. -/
theorem getCached_l2_hit (s : CacheState) (ip rblHost : String) (now : Nat)
    (env : Env) (l1a : List (String × L1Entry)) (row : L2Row)
    (hmiss : memGet env s.l1 ip rblHost now = (none, l1a))
    (hpg : env.pgErr = false)
    (hcanon : canonIp ip = some row.ip)
    (hfind : s.l2.find? (fun r =>
        decide (r.ip = row.ip ∧ r.rblHost = rblHost ∧ now < r.expiresAt))
      = some row)
    (hrem : 0 < row.expiresAt - now) :
    getCached s ip rblHost now env =
      (some ⟨rowToData row, true, .postgres⟩,
       ⟨(memSet env l1a ip rblHost (rowToData row) (row.expiresAt - now) now).2,
        s.l2⟩) := by
  unfold getCached pgSelectE
  rw [hmiss, if_neg (by simp [hpg]), hcanon]
  dsimp only
  rw [hfind]
  dsimp only
  rw [if_pos hrem]

/-- Replacing the key-matching rows of the table leaves the upserted row
as first match of the key-and-unexpired select. -/
theorem find?_map_replace (l2 : List L2Row) (row : L2Row) (t : Nat)
    (hexp : t < row.expiresAt)
    (hany : l2.any (fun r => decide (r.ip = row.ip ∧ r.rblHost = row.rblHost))
      = true) :
    (l2.map (fun r =>
        if r.ip = row.ip ∧ r.rblHost = row.rblHost then row else r)).find?
      (fun r => decide (r.ip = row.ip ∧ r.rblHost = row.rblHost ∧ t < r.expiresAt))
      = some row := by
  induction l2 with
  | nil => cases hany
  | cons a l2 ih =>
    by_cases hka : a.ip = row.ip ∧ a.rblHost = row.rblHost
    · simp only [List.map_cons, if_pos hka]
      rw [List.find?_cons_of_pos _ (by simp [hexp])]
    · simp only [List.map_cons, if_neg hka]
      rw [List.find?_cons_of_neg _ (by
        simp only [decide_eq_true_eq]
        rintro ⟨h1, h2, -⟩
        exact hka ⟨h1, h2⟩)]
      apply ih
      have := List.any_cons .. ▸ hany
      simp only [Bool.or_eq_true, decide_eq_true_eq] at this
      rcases this with hh | ht
      · exact absurd hh hka
      · simpa using ht

/-- The select after an upsert finds the upserted row while it is
unexpired. -/
theorem find?_l2upsert (l2 : List L2Row) (row : L2Row) (t : Nat)
    (hexp : t < row.expiresAt) :
    (l2upsert l2 row).find?
      (fun r => decide (r.ip = row.ip ∧ r.rblHost = row.rblHost ∧ t < r.expiresAt))
      = some row := by
  unfold l2upsert
  split
  · exact find?_map_replace l2 row t hexp (by assumption)
  · rename_i hany
    have hall : ∀ r ∈ l2,
        (fun r => decide (r.ip = row.ip ∧ r.rblHost = row.rblHost ∧ t < r.expiresAt)) r
          = false := by
      intro r hr
      simp only [decide_eq_false_iff_not]
      rintro ⟨h1, h2, -⟩
      exact hany (List.any_eq_true.mpr ⟨r, hr, by simp [h1, h2]⟩)
    have := find?_eq_of_prefix_false
      (fun r => decide (r.ip = row.ip ∧ r.rblHost = row.rblHost ∧ t < r.expiresAt))
      l2 row [] hall (by simp [hexp])
    simpa using this

/-! ## Theorems for C4 -/

/-- C4: `getCached` never returns an entry whose `expiresAt` has passed —
for every enabled/disabled mode and fault combination, on any state whose
fast-tier objects carry a truthy (non-zero) `expiresAt`, which both
writers guarantee; and, enabled and fault-free with unique durable keys,
when the fast tier misses and the durable tier holds an unexpired row
under the key, `getCached` returns that row's data and backfills the fast
tier with `remainingTTL = expiresAt − now`. -/
theorem c4_getCached_contract (s : CacheState) (ip rblHost : String) (now : Nat)
    (env : Env) (hEA : ∀ e ∈ s.l1, e.2.data.expiresAt ≠ 0) :
    (∀ r s', getCached s ip rblHost now env = (some r, s') →
      now < r.data.expiresAt) ∧
    (∀ row ∈ s.l2, env = stdEnv → L2KeysUnique s.l2 →
      memGet stdEnv s.l1 ip rblHost now = (none, s.l1) →
      canonIp ip = some row.ip → row.rblHost = rblHost → now < row.expiresAt →
      getCached s ip rblHost now env =
        (some ⟨rowToData row, true, .postgres⟩,
         ⟨(memSet stdEnv s.l1 ip rblHost (rowToData row) (row.expiresAt - now)
             now).2, s.l2⟩)) := by
  constructor
  · intro r s' h
    rcases hmem : memGet env s.l1 ip rblHost now with ⟨o, l1a⟩
    cases o with
    | some d =>
      rw [getCached_l1_hit s ip rblHost now env d l1a hmem] at h
      have hr : some (⟨d, true, .memcache⟩ : GetResult) = some r :=
        congrArg Prod.fst h
      cases Option.some.inj hr
      obtain ⟨⟨e, he, hed⟩, hor⟩ := memGet_eq_some env s.l1 ip rblHost now d l1a hmem
      rcases hor with hz | hlt
      · exact absurd (hed ▸ hz) (hEA e he)
      · exact hlt
    | none =>
      unfold getCached at h
      rw [hmem] at h
      dsimp only at h
      cases hsel : pgSelectE env s.l2 ip rblHost now with
      | error e =>
        rw [hsel] at h
        simp at h
      | ok ro =>
        rw [hsel] at h
        cases ro with
        | none => simp at h
        | some row =>
          have hexp : now < row.expiresAt := by
            unfold pgSelectE at hsel
            by_cases hpg : env.pgErr
            · rw [if_pos hpg] at hsel
              cases hsel
            · rw [if_neg hpg] at hsel
              cases hcanon : canonIp ip with
              | none => rw [hcanon] at hsel; cases hsel
              | some cip =>
                rw [hcanon] at hsel
                change Except.ok (s.l2.find? _) = Except.ok (some row) at hsel
                have hfind := Except.ok.inj hsel
                have := List.find?_some hfind
                simp only [decide_eq_true_eq] at this
                exact this.2.2
          dsimp only at h
          split at h
          · have hr : some (⟨rowToData row, true, .postgres⟩ : GetResult) = some r :=
              congrArg Prod.fst h
            cases Option.some.inj hr
            simpa [rowToData] using hexp
          · have hr : some (⟨rowToData row, true, .postgres⟩ : GetResult) = some r :=
              congrArg Prod.fst h
            cases Option.some.inj hr
            simpa [rowToData] using hexp
  · intro row hrow henv hu hmiss hcanon hhost hexp
    subst henv
    have hfind := l2_find?_of_unique s.l2 row row.ip rblHost now hrow hu rfl hhost hexp
    have hrem : 0 < row.expiresAt - now := Nat.sub_pos_of_lt hexp
    exact getCached_l2_hit s ip rblHost now stdEnv s.l1 row hmiss rfl hcanon hfind hrem

/-- Concrete durable row used by the cache witnesses. -/
def row0 : L2Row :=
  ⟨⟨false, 16909060⟩, "bl.example.org", true, some ⟨false, 2130706434⟩,
    none, 600, 1000, 1600⟩

/-- Witness for C4: an empty fast tier, one unexpired durable row, read
back and backfilled at `now = 1200` with the memcache tier enabled. -/
theorem c4_getCached_contract_witness :
    (getCached ⟨[], [row0]⟩ ("1.2.3.4") ("bl.example.org") 1200 stdEnv).1 =
      some ⟨rowToData row0, true, .postgres⟩ :=
  congrArg Prod.fst
    ((c4_getCached_contract ⟨[], [row0]⟩ ("1.2.3.4") ("bl.example.org") 1200
        stdEnv (by intro e he; cases he)).2
      row0 (by decide) rfl (by simp [L2KeysUnique]) rfl (by decide) rfl
      (by decide))

/-! ## Theorems for C5 -/

/-- C5: after a fault-free `cache` write, a fault-free `getCached` on the
same key within `ttl` seconds returns the written
`(listed, response, error)` value and TTL, modulo the transport flags
`fromCache`/`cacheSource`. With the memcache tier enabled the read is
served from L1 with the exact stored object; in the default deployment
(`MEMCACHE_ENABLED` unset) it is served from Postgres, whose `host()`
rendering returns the same value when the written response is a canonical
address (as every upstream A record is). -/
theorem c5_cache_then_get (s : CacheState) (ip rblHost : String) (listed : Bool)
    (response : Option RespVal) (error : Option String) (ttl now t : Nat)
    (h : t < now + ttl) :
    (getCached (cache s ip rblHost listed response error ttl now stdEnv)
        ip rblHost t stdEnv).1 =
      some ⟨⟨ip, rblHost, listed, response, error, ttl, now, now + ttl⟩,
        true, .memcache⟩ ∧
    (∀ cip : Inet, canonIp ip = some cip →
      (response = none ∨ ∃ r cr, response = some (.str r) ∧
        canonIp r = some cr ∧ showInet cr = r) →
      (getCached (cache s ip rblHost listed response error ttl now noL1Env)
          ip rblHost t noL1Env).1 =
        some ⟨⟨showInet cip, rblHost, listed, response, error, ttl, now, now + ttl⟩,
          true, .postgres⟩) := by
  constructor
  · have hget := memGet_memSet_same s.l1 ip rblHost
      ⟨ip, rblHost, listed, response, error, ttl, now, now + ttl⟩ ttl now t h rfl
    have hmg : memGet stdEnv
        (cache s ip rblHost listed response error ttl now stdEnv).l1 ip rblHost t
        = (some ⟨ip, rblHost, listed, response, error, ttl, now, now + ttl⟩,
           (cache s ip rblHost listed response error ttl now stdEnv).l1) := hget
    rw [getCached_l1_hit _ _ _ _ _ _ _ hmg]
  · intro cip hcanon hresp
    have hmiss : memGet noL1Env
        (cache s ip rblHost listed response error ttl now noL1Env).l1 ip rblHost t
        = (none, (cache s ip rblHost listed response error ttl now noL1Env).l1) :=
      rfl
    rcases hresp with hnone | ⟨r, cr, hr, hcr, hshow⟩
    · have hl2 : (cache s ip rblHost listed response error ttl now noL1Env).l2
          = l2upsert s.l2 ⟨cip, rblHost, listed, none, error, ttl, now, now + ttl⟩ := by
        show (match pgUpsertE noL1Env s.l2 ip rblHost listed response error ttl now with
          | .ok l2x => l2x
          | .error _ => s.l2) = _
        unfold pgUpsertE
        rw [if_neg (by decide), hcanon, hnone]
      have hfind : ((cache s ip rblHost listed response error ttl now noL1Env).l2).find?
          (fun rr => decide (rr.ip = cip ∧ rr.rblHost = rblHost ∧ t < rr.expiresAt))
          = some ⟨cip, rblHost, listed, none, error, ttl, now, now + ttl⟩ := by
        rw [hl2]
        exact find?_l2upsert s.l2
          ⟨cip, rblHost, listed, none, error, ttl, now, now + ttl⟩ t
          (by show t < now + ttl; exact h)
      rw [getCached_l2_hit _ ip rblHost t noL1Env _
        ⟨cip, rblHost, listed, none, error, ttl, now, now + ttl⟩ hmiss rfl hcanon
        hfind (by show 0 < now + ttl - t; omega)]
      subst hnone
      rfl
    · have hl2 : (cache s ip rblHost listed response error ttl now noL1Env).l2
          = l2upsert s.l2 ⟨cip, rblHost, listed, some cr, error, ttl, now, now + ttl⟩ := by
        show (match pgUpsertE noL1Env s.l2 ip rblHost listed response error ttl now with
          | .ok l2x => l2x
          | .error _ => s.l2) = _
        unfold pgUpsertE
        rw [if_neg (by decide), hcanon, hr]
        dsimp only
        rw [hcr]
      have hfind : ((cache s ip rblHost listed response error ttl now noL1Env).l2).find?
          (fun rr => decide (rr.ip = cip ∧ rr.rblHost = rblHost ∧ t < rr.expiresAt))
          = some ⟨cip, rblHost, listed, some cr, error, ttl, now, now + ttl⟩ := by
        rw [hl2]
        exact find?_l2upsert s.l2
          ⟨cip, rblHost, listed, some cr, error, ttl, now, now + ttl⟩ t
          (by show t < now + ttl; exact h)
      rw [getCached_l2_hit _ ip rblHost t noL1Env _
        ⟨cip, rblHost, listed, some cr, error, ttl, now, now + ttl⟩ hmiss rfl hcanon
        hfind (by show 0 < now + ttl - t; omega)]
      subst hr
      simp [rowToData, hshow]

/-- Witness for C5 at a concrete write and read, in both the
memcache-enabled and the default Postgres-only deployment. -/
theorem c5_cache_then_get_witness :
    (getCached
        (cache ⟨[], []⟩ ("1.2.3.4") ("zen.spamhaus.org") true
          (some (.str ("127.0.0.2"))) none 900 1000 stdEnv)
        ("1.2.3.4") ("zen.spamhaus.org") 1500 stdEnv).1 =
      some ⟨⟨"1.2.3.4", "zen.spamhaus.org", true, some (.str ("127.0.0.2")),
        none, 900, 1000, 1900⟩, true, .memcache⟩ ∧
    (getCached
        (cache ⟨[], []⟩ ("1.2.3.4") ("zen.spamhaus.org") true
          (some (.str ("127.0.0.2"))) none 900 1000 noL1Env)
        ("1.2.3.4") ("zen.spamhaus.org") 1500 noL1Env).1 =
      some ⟨⟨"1.2.3.4", "zen.spamhaus.org", true, some (.str ("127.0.0.2")),
        none, 900, 1000, 1900⟩, true, .postgres⟩ :=
  ⟨(c5_cache_then_get ⟨[], []⟩ ("1.2.3.4") ("zen.spamhaus.org") true
      (some (.str ("127.0.0.2"))) none 900 1000 1500 (by decide)).1,
   (c5_cache_then_get ⟨[], []⟩ ("1.2.3.4") ("zen.spamhaus.org") true
      (some (.str ("127.0.0.2"))) none 900 1000 1500 (by decide)).2
     ⟨false, 16909060⟩ (by decide)
     (Or.inr ⟨"127.0.0.2", ⟨false, 2130706434⟩, rfl, by decide, by decide⟩)⟩

/-! ## Theorems for C8 -/

/-- Concrete two-tier state used by the C8 counterexample: the same entry
lives in both tiers (memcache enabled). -/
def c8state : CacheState :=
  ⟨[(generateKey ("1.2.3.4") ("bl.example.org"),
     ⟨⟨"1.2.3.4", "bl.example.org", true, some (.str ("127.0.0.2")),
       none, 600, 1000, 1600⟩, some 1600⟩)],
   [row0]⟩

/-- C8 counterexample: `clearIp` empties the durable tier, yet a
subsequent `get` on the very key still returns the entry from the fast
tier — the claim that both tiers are cleared (so that the get misses)
fails. -/
theorem c8_counterexample :
    (clearIp c8state ("1.2.3.4") stdEnv).l2 = [] ∧
    (getCached (clearIp c8state ("1.2.3.4") stdEnv) ("1.2.3.4")
        ("bl.example.org") 1200 stdEnv).1 ≠ none := by
  decide

/-- C8 (amended): `clearIp` removes from the durable tier exactly the
entries whose key IP canonicalises equal to `ip` (whatever lexical form
they were stored under) and leaves every other durable entry and the whole
fast tier unchanged; a subsequent `get` under any lexical form of that IP
misses only when the fast tier yields no value for the queried key. -/
theorem c8_clearIp_durable_only (s : CacheState) (ip : String) (cip : Inet)
    (env : Env) (h : canonIp ip = some cip) (hpg : env.pgErr = false) :
    (clearIp s ip env).l1 = s.l1 ∧
    (∀ r ∈ s.l2, r.ip ≠ cip → r ∈ (clearIp s ip env).l2) ∧
    (∀ r ∈ (clearIp s ip env).l2, r ∈ s.l2 ∧ r.ip ≠ cip) ∧
    (∀ ip' rblHost : String, ∀ now : Nat,
      ∀ l1a : List (String × L1Entry), canonIp ip' = some cip →
      memGet env s.l1 ip' rblHost now = (none, l1a) →
      (getCached (clearIp s ip env) ip' rblHost now env).1 = none) := by
  have hL : clearIp s ip env =
      { s with l2 := s.l2.filter (fun r => !(decide (r.ip = cip))) } := by
    unfold clearIp
    rw [if_neg (by simp [hpg]), h]
  refine ⟨by rw [hL], ?_, ?_, ?_⟩
  · intro r hr hne
    rw [hL]
    exact List.mem_filter.mpr ⟨hr, by simp [hne]⟩
  · intro r hr
    rw [hL] at hr
    have hm := List.mem_filter.mp hr
    exact ⟨hm.1, by simpa using hm.2⟩
  · intro ip' rblHost now l1a hc' hmiss
    have hfind : ((clearIp s ip env).l2).find?
        (fun row => decide (row.ip = cip ∧ row.rblHost = rblHost ∧ now < row.expiresAt))
        = none := by
      apply List.find?_eq_none.mpr
      intro r hr
      rw [hL] at hr
      have hm := (List.mem_filter.mp hr).2
      have : r.ip ≠ cip := by simpa using hm
      simp [this]
    have hmiss' : memGet env (clearIp s ip env).l1 ip' rblHost now = (none, l1a) := by
      rw [hL]
      exact hmiss
    rw [getCached_l2_miss (clearIp s ip env) ip' rblHost now env l1a cip hmiss' hpg
      hc' hfind]

/-- Witness for the amended C8 theorem: the fast tier of the concrete
state survives the clear untouched. -/
theorem c8_clearIp_durable_only_witness :
    (clearIp c8state ("1.2.3.4") stdEnv).l1 = c8state.l1 :=
  (c8_clearIp_durable_only c8state ("1.2.3.4") ⟨false, 16909060⟩ stdEnv
    (by decide) rfl).1

/-! ## Custom-RBL CIDR matching (custom-rbl-lookup.js `checkCustomRbl`) -/

/-- The bit width of an address family. -/
def inetWidth (v6 : Bool) : Nat := if v6 then 128 else 32

/-- A Postgres `cidr` value: family, numeric address, prefix length. -/
structure Cidr where
  v6 : Bool
  addr : Nat
  masklen : Nat
deriving DecidableEq

/-- Well-formedness enforced by the `cidr` type: prefix length within the
family width, host bits zero, address within the family width. -/
def cidrWf (net : Cidr) : Prop :=
  net.masklen ≤ inetWidth net.v6 ∧
  net.addr % 2 ^ (inetWidth net.v6 - net.masklen) = 0 ∧
  net.addr < 2 ^ inetWidth net.v6

instance (net : Cidr) : Decidable (cidrWf net) := by
  unfold cidrWf
  infer_instance

/-- Postgres `network >>= ip`: same family and the high `masklen` bits of
`ip` equal those of the network's base (a right-shift compare); families
never mix. -/
def cidrContains (net : Cidr) (ip : Inet) : Bool :=
  decide (net.v6 = ip.v6 ∧
    ip.addr / 2 ^ (inetWidth net.v6 - net.masklen)
      = net.addr / 2 ^ (inetWidth net.v6 - net.masklen))

/-- One row of the `custom_rbl_entries` relation (the columns
`checkCustomRbl` selects or filters on). -/
structure CustomRblEntry where
  id : Nat
  network : Cidr
  listed : Bool
  reason : Option String
deriving DecidableEq

/-- The possible results of the select in `checkCustomRbl`:
`WHERE listed = true AND network >>= ip ORDER BY masklen(network) DESC
LIMIT 1` orders by mask length only, so any candidate row of maximal mask
length may be returned. -/
def sqlTopRow (entries : List CustomRblEntry) (ip : Inet) (e : CustomRblEntry) :
    Prop :=
  e ∈ entries ∧ e.listed = true ∧ cidrContains e.network ip = true ∧
    ∀ e' ∈ entries, e'.listed = true → cidrContains e'.network ip = true →
      e'.network.masklen ≤ e.network.masklen

instance (entries : List CustomRblEntry) (ip : Inet) (e : CustomRblEntry) :
    Decidable (sqlTopRow entries ip e) := by
  unfold sqlTopRow
  infer_instance

/-- The result object `checkCustomRbl` builds from the selected row. -/
structure CustomRblResult where
  listed : Bool
  response : Option String
  reason : Option String
  network : Option Cidr
  entryId : Option Nat
  error : Option String
deriving DecidableEq

/-- The hit branch of `checkCustomRbl`: listed, sentinel response
`127.0.0.2`, the row's reason via `entry.reason || 'Listed in custom
blocklist'` (JS `||`: a null or empty-string reason falls back to the
default text), network and id. -/
def checkCustomRblHit (e : CustomRblEntry) : CustomRblResult :=
  { listed := true, response := some ("127.0.0.2"),
    reason := some (match e.reason with
      | some r => if r = "" then "Listed in custom blocklist" else r
      | none => "Listed in custom blocklist"),
    network := some e.network, entryId := some e.id, error := none }

/-- Two well-formed networks of equal prefix length that both contain the
same address are equal: the base is the address's prefix, determined by
the family and the mask length. -/
theorem cidr_eq_of_contains (net1 net2 : Cidr) (ip : Inet)
    (h1 : cidrWf net1) (h2 : cidrWf net2)
    (hc1 : cidrContains net1 ip = true) (hc2 : cidrContains net2 ip = true)
    (hm : net1.masklen = net2.masklen) : net1 = net2 := by
  simp only [cidrContains, decide_eq_true_eq] at hc1 hc2
  have hv : net1.v6 = net2.v6 := by rw [hc1.1, hc2.1]
  have hs : inetWidth net1.v6 - net1.masklen = inetWidth net2.v6 - net2.masklen := by
    rw [hv, hm]
  have hdiv : net1.addr / 2 ^ (inetWidth net1.v6 - net1.masklen)
      = net2.addr / 2 ^ (inetWidth net2.v6 - net2.masklen) := by
    rw [← hc1.2, hs, ← hc2.2]
  have haddr : net1.addr = net2.addr := by
    have e1 : net1.addr / 2 ^ (inetWidth net1.v6 - net1.masklen)
        * 2 ^ (inetWidth net1.v6 - net1.masklen) = net1.addr :=
      Nat.div_mul_cancel (Nat.dvd_of_mod_eq_zero h1.2.1)
    have e2 : net2.addr / 2 ^ (inetWidth net2.v6 - net2.masklen)
        * 2 ^ (inetWidth net2.v6 - net2.masklen) = net2.addr :=
      Nat.div_mul_cancel (Nat.dvd_of_mod_eq_zero h2.2.1)
    rw [← e1, ← e2, hdiv, hs]
  cases net1
  cases net2
  simp only at hv haddr hm
  rw [hv, haddr, hm]

/-! ## Theorems for C6 -/

/-- The duplicated network `10.0.0.0/8` of the C6 counterexample: nothing
in the schema forbids two rows with the same network, and the select
orders by mask length only. -/
def dupNet : Cidr := ⟨false, 167772160, 8⟩

/-- The two listed duplicate rows (ids 1 and 2). -/
def dupEntries : List CustomRblEntry :=
  [⟨1, dupNet, true, some ("corp block")⟩, ⟨2, dupNet, true, some ("dup")⟩]

/-- The probed address 10.1.4.5. -/
def dupIp : Inet := ⟨false, 167838725⟩

/-- C6 counterexample: with two listed rows sharing the network
`10.0.0.0/8` (the table has no unique constraint on `network`), the row
with id 2 is a possible result of the select — `ORDER BY masklen(network)
DESC LIMIT 1` carries no id tie-break — although a containing listed entry
of equal prefix length with the smaller id 1 exists, so the claimed
smallest-id tie-break fails at this table. -/
theorem c6_counterexample :
    ¬ (∀ e : CustomRblEntry, sqlTopRow dupEntries dupIp e →
        ∀ e' ∈ dupEntries, e'.listed = true →
          cidrContains e'.network dupIp = true →
          e'.network.masklen = e.network.masklen → e.id ≤ e'.id) := by
  intro hcl
  exact absurd
    (hcl ⟨2, dupNet, true, some ("dup")⟩ (by decide)
      ⟨1, dupNet, true, some ("corp block")⟩ (by decide) (by decide)
      (by decide) (by decide))
    (by decide)

/-- C6 (amended): any row the select of `checkCustomRbl` can return is a
listed entry whose network contains the IP with maximal prefix length
among such entries; two well-formed containing networks of equal prefix
length are equal, so ties arise only between rows carrying the identical
network — possible, since the table has no unique constraint on
`network` — and among those the returned id is unspecified; the built
result is the listed `127.0.0.2` response carrying the row's reason
(default text for a null or empty reason), network and id. -/
theorem c6_checkCustomRbl_maxPrefix (entries : List CustomRblEntry)
    (ip : Inet) (e : CustomRblEntry)
    (hwf : ∀ a ∈ entries, cidrWf a.network)
    (h : sqlTopRow entries ip e) :
    e ∈ entries ∧ e.listed = true ∧ cidrContains e.network ip = true ∧
    (∀ e' ∈ entries, e'.listed = true → cidrContains e'.network ip = true →
      e'.network.masklen ≤ e.network.masklen) ∧
    (∀ e' ∈ entries, e'.listed = true → cidrContains e'.network ip = true →
      e'.network.masklen = e.network.masklen → e'.network = e.network) ∧
    checkCustomRblHit e =
      { listed := true, response := some ("127.0.0.2"),
        reason := some (match e.reason with
          | some r => if r = "" then "Listed in custom blocklist" else r
          | none => "Listed in custom blocklist"),
        network := some e.network, entryId := some e.id, error := none } := by
  obtain ⟨hmem, hlisted, hcont, hmax⟩ := h
  refine ⟨hmem, hlisted, hcont, hmax, ?_, rfl⟩
  intro e' hmem' hlisted' hcont' hmlen
  exact cidr_eq_of_contains e'.network e.network ip (hwf e' hmem') (hwf e hmem)
    hcont' hcont hmlen

/-- Witness for the amended C6: two nested IPv4 networks, the /16 one wins
for an address inside both. `10.0.0.0/8` is address `167772160`,
`10.1.0.0/16` is `167837696`, and the IP `10.1.4.5` is `167838725`. -/
theorem c6_checkCustomRbl_maxPrefix_witness :
    ⟨2, ⟨false, 167837696, 16⟩, true, some ("lab")⟩ ∈
      ([⟨1, ⟨false, 167772160, 8⟩, true, some ("corp block")⟩,
        ⟨2, ⟨false, 167837696, 16⟩, true, some ("lab")⟩] : List CustomRblEntry) ∧
    (⟨2, ⟨false, 167837696, 16⟩, true, some ("lab")⟩ : CustomRblEntry).listed = true ∧
    cidrContains ⟨false, 167837696, 16⟩ ⟨false, 167838725⟩ = true ∧
    (∀ e' ∈ ([⟨1, ⟨false, 167772160, 8⟩, true, some ("corp block")⟩,
        ⟨2, ⟨false, 167837696, 16⟩, true, some ("lab")⟩] : List CustomRblEntry),
      e'.listed = true → cidrContains e'.network ⟨false, 167838725⟩ = true →
      e'.network.masklen ≤ (16 : Nat)) ∧
    (∀ e' ∈ ([⟨1, ⟨false, 167772160, 8⟩, true, some ("corp block")⟩,
        ⟨2, ⟨false, 167837696, 16⟩, true, some ("lab")⟩] : List CustomRblEntry),
      e'.listed = true → cidrContains e'.network ⟨false, 167838725⟩ = true →
      e'.network.masklen = (16 : Nat) →
      e'.network = (⟨false, 167837696, 16⟩ : Cidr)) ∧
    checkCustomRblHit ⟨2, ⟨false, 167837696, 16⟩, true, some ("lab")⟩ =
      { listed := true, response := some ("127.0.0.2"), reason := some ("lab"),
        network := some ⟨false, 167837696, 16⟩, entryId := some 2, error := none } :=
  c6_checkCustomRbl_maxPrefix
    [⟨1, ⟨false, 167772160, 8⟩, true, some ("corp block")⟩,
     ⟨2, ⟨false, 167837696, 16⟩, true, some ("lab")⟩]
    ⟨false, 167838725⟩
    ⟨2, ⟨false, 167837696, 16⟩, true, some ("lab")⟩
    (by decide) (by decide)

/-! ## String lemmas for the reverse-IP roundtrip (C7) -/

/-- A character a reversed dotted-quad is built from: a decimal digit or
the dot separator. -/
def dotOrDigit (c : Char) : Bool :=
  c.isDigit || c == '.'

/-- Splitting never returns the empty list of groups. -/
theorem jsSplitOn_ne_nil (sep : Char) (s : List Char) : jsSplitOn sep s ≠ [] := by
  cases s with
  | nil => simp [jsSplitOn]
  | cons c rest =>
    by_cases h : c = sep
    · simp [jsSplitOn, h]
    · rcases hsplit : jsSplitOn sep rest with _ | ⟨g, gs⟩ <;>
        simp [jsSplitOn, h, hsplit]

/-- Splitting a separator-free string yields the single group. -/
theorem jsSplitOn_no_sep (sep : Char) (p : List Char) (h : sep ∉ p) :
    jsSplitOn sep p = [p] := by
  induction p with
  | nil => rfl
  | cons c rest ih =>
    have hc : ¬ c = sep := fun hh => h (hh ▸ List.mem_cons_self c rest)
    have ih' := ih (fun hmem => h (List.mem_cons_of_mem _ hmem))
    unfold jsSplitOn
    rw [if_neg hc, ih']

/-- Splitting peels a separator-free group off the front. -/
theorem jsSplitOn_append_sep (sep : Char) (p t : List Char) (h : sep ∉ p) :
    jsSplitOn sep (p ++ sep :: t) = p :: jsSplitOn sep t := by
  induction p with
  | nil =>
    show jsSplitOn sep (sep :: t) = [] :: jsSplitOn sep t
    simp [jsSplitOn]
  | cons c p ih =>
    have hc : ¬ c = sep := fun hh => h (hh ▸ List.mem_cons_self c p)
    have ih' := ih (fun hmem => h (List.mem_cons_of_mem _ hmem))
    show jsSplitOn sep (c :: (p ++ sep :: t)) = (c :: p) :: jsSplitOn sep t
    simp only [jsSplitOn]
    rw [if_neg hc, ih']

/-- Split is a left inverse of join on non-empty lists of separator-free
groups. -/
theorem jsSplitOn_jsJoin (sep : Char) (ps : List (List Char)) (hne : ps ≠ [])
    (h : ∀ p ∈ ps, sep ∉ p) : jsSplitOn sep (jsJoin sep ps) = ps := by
  induction ps with
  | nil => exact absurd rfl hne
  | cons p ps ih =>
    cases ps with
    | nil => exact jsSplitOn_no_sep sep p (h p (by simp))
    | cons q ps' =>
      show jsSplitOn sep (p ++ sep :: jsJoin sep (q :: ps')) = p :: q :: ps'
      rw [jsSplitOn_append_sep sep p _ (h p (by simp)),
        ih (by simp) (fun r hr => h r (by simp [hr]))]

/-- Every character of a dot-join of digit-only groups is a digit or a
dot. -/
theorem good_chars_jsJoin (ps : List (List Char))
    (h : ∀ p ∈ ps, ∀ c ∈ p, c.isDigit = true) :
    ∀ c ∈ jsJoin '.' ps, dotOrDigit c = true := by
  induction ps with
  | nil => intro c hc; cases hc
  | cons p ps ih =>
    cases ps with
    | nil =>
      intro c hc
      have hc' : c ∈ p := hc
      simp [dotOrDigit, h p (by simp) c hc']
    | cons q ps' =>
      intro c hc
      have hc' : c ∈ p ++ '.' :: jsJoin '.' (q :: ps') := hc
      rcases List.mem_append.mp hc' with hmem | hmem
      · simp [dotOrDigit, h p (by simp) c hmem]
      · rcases List.mem_cons.mp hmem with rfl | hmem'
        · rfl
        · exact ih (fun r hr => h r (by simp [hr])) c hmem'

/-- A list containing a non-good character decomposes at its first one. -/
theorem exists_first_bad (s : List Char) (h : ∃ c ∈ s, dotOrDigit c = false) :
    ∃ g b t, s = g ++ b :: t ∧ (∀ c ∈ g, dotOrDigit c = true) ∧
      dotOrDigit b = false := by
  induction s with
  | nil =>
    obtain ⟨c, hc, -⟩ := h
    cases hc
  | cons c s ih =>
    cases hdc : dotOrDigit c with
    | false =>
      refine ⟨[], c, s, rfl, ?_, hdc⟩
      intro x hx
      cases hx
    | true =>
      obtain ⟨d, hd, hbad⟩ := h
      rcases List.mem_cons.mp hd with rfl | hd'
      · exact absurd hbad (by rw [hdc]; simp)
      · obtain ⟨g, b, t, hs, hg, hb⟩ := ih ⟨d, hd', hbad⟩
        refine ⟨c :: g, b, t, by rw [hs]; rfl, ?_, hb⟩
        intro x hx
        rcases List.mem_cons.mp hx with rfl | hx'
        · exact hdc
        · exact hg x hx'

/-- The pattern `"." + s` cannot occur inside `pre ++ "." + s` starting
within the non-empty good-character run `pre` when `s` contains a
character that is neither a digit nor a dot: the first such character of
the pattern would have to align with an earlier, good character. -/
theorem not_isPrefixOf_inside (pre : List Char) (hne : pre ≠ [])
    (hgood : ∀ c ∈ pre, dotOrDigit c = true)
    (g : List Char) (b : Char) (t : List Char)
    (hg : ∀ c ∈ g, dotOrDigit c = true) (hb : dotOrDigit b = false) :
    ('.' :: (g ++ b :: t)).isPrefixOf (pre ++ '.' :: (g ++ b :: t)) = false := by
  cases hval : ('.' :: (g ++ b :: t)).isPrefixOf (pre ++ '.' :: (g ++ b :: t)) with
  | false => rfl
  | true =>
    exfalso
    obtain ⟨u, hu⟩ := List.isPrefixOf_iff_prefix.mp hval
    -- the char of the pattern at index `g.length + 1` is `b`
    have hpatI : ('.' :: (g ++ b :: t))[g.length + 1]? = some b := by
      show (('.' :: g) ++ b :: t)[g.length + 1]? = some b
      rw [List.getElem?_append_right (by simp)]
      simp
    -- every char of the pattern at an index below `g.length + 1` is good
    have hpatGood : ∀ j, j < g.length + 1 → ∀ c : Char,
        ('.' :: (g ++ b :: t))[j]? = some c → dotOrDigit c = true := by
      intro j hjj c hc
      have hjL : j < ('.' :: g).length := by simpa using hjj
      have hc' : ('.' :: g)[j]? = some c := by
        rw [← @List.getElem?_append_left Char ('.' :: g) (b :: t) j hjL]
        exact hc
      obtain ⟨hlt, hval'⟩ := List.getElem?_eq_some_iff.mp hc'
      have hmem : c ∈ '.' :: g := hval' ▸ List.getElem_mem hlt
      rcases List.mem_cons.mp hmem with he | he
      · rw [he]; rfl
      · exact hg _ he
    -- pointwise equality from the prefix equation
    have hpoint : ∀ j, j < ('.' :: (g ++ b :: t)).length →
        ('.' :: (g ++ b :: t))[j]? = (pre ++ '.' :: (g ++ b :: t))[j]? := by
      intro j hjj
      have h₁ : (('.' :: (g ++ b :: t)) ++ u)[j]? = ('.' :: (g ++ b :: t))[j]? :=
        List.getElem?_append_left hjj
      rw [← h₁]
      exact congrArg (fun l => l[j]?) hu
    have hj : g.length + 1 < ('.' :: (g ++ b :: t)).length := by
      simp only [List.length_cons, List.length_append]
      omega
    have hfull : (pre ++ '.' :: (g ++ b :: t))[g.length + 1]? = some b := by
      rw [← hpoint (g.length + 1) hj]
      exact hpatI
    by_cases hcase : g.length + 1 < pre.length
    · -- the bad char would sit inside the good run `pre`
      have h1 : pre[g.length + 1]? = some b := by
        rw [← @List.getElem?_append_left Char pre ('.' :: (g ++ b :: t))
          (g.length + 1) hcase]
        exact hfull
      obtain ⟨hlt, hval'⟩ := List.getElem?_eq_some_iff.mp h1
      have hmem : b ∈ pre := hval' ▸ List.getElem_mem hlt
      rw [hgood b hmem] at hb
      cases hb
    · -- the bad char would align with an earlier char of the pattern
      have hple : pre.length ≤ g.length + 1 := Nat.le_of_not_lt hcase
      have hprepos : 0 < pre.length := List.length_pos.mpr hne
      have h1 : ('.' :: (g ++ b :: t))[g.length + 1 - pre.length]? = some b := by
        rw [← List.getElem?_append_right hple]
        exact hfull
      have hlt : g.length + 1 - pre.length < g.length + 1 := by omega
      rw [hpatGood (g.length + 1 - pre.length) hlt b h1] at hb
      cases hb

/-- Removing the first occurrence of a non-empty pattern from the pattern
itself leaves nothing. -/
theorem jsReplaceFirst_pat_self (pat : List Char) (hne : pat ≠ []) :
    jsReplaceFirst pat pat = [] := by
  cases pat with
  | nil => exact absurd rfl hne
  | cons c rest =>
    unfold jsReplaceFirst
    rw [if_pos (by simp [List.isPrefixOf_iff_prefix])]
    exact List.drop_length _

/-- Stripping the first occurrence of `"." + s` from `pre ++ "." + s`
recovers `pre` when `pre` is all digits-or-dots and `s` contains a
character that is neither. -/
theorem jsReplaceFirst_strip (pre : List Char)
    (hgood : ∀ c ∈ pre, dotOrDigit c = true)
    (g : List Char) (b : Char) (t : List Char)
    (hg : ∀ c ∈ g, dotOrDigit c = true) (hb : dotOrDigit b = false) :
    jsReplaceFirst (pre ++ '.' :: (g ++ b :: t)) ('.' :: (g ++ b :: t)) = pre := by
  induction pre with
  | nil => simpa using jsReplaceFirst_pat_self ('.' :: (g ++ b :: t)) (by simp)
  | cons c pre ih =>
    have hnp := not_isPrefixOf_inside (c :: pre) (by simp) hgood g b t hg hb
    show jsReplaceFirst (c :: (pre ++ '.' :: (g ++ b :: t)))
      ('.' :: (g ++ b :: t)) = c :: pre
    unfold jsReplaceFirst
    rw [if_neg (by
      rw [show c :: (pre ++ '.' :: (g ++ b :: t))
          = (c :: pre) ++ '.' :: (g ++ b :: t) from rfl, hnp]
      simp)]
    rw [ih (fun x hx => hgood x (List.mem_cons_of_mem _ hx))]

/-- Running `parseInt` on a non-empty all-digit string is its decimal value. -/
theorem jsParseInt_digits (cs : List Char) (hne : cs ≠ [])
    (hdig : ∀ c ∈ cs, c.isDigit = true) :
    jsParseInt cs = some ((digitsVal cs : Nat) : Int) := by
  have hlead : leadDigits cs = some (digitsVal cs) := by
    unfold leadDigits
    rw [List.takeWhile_eq_self_iff.mpr (by intro x hx; exact hdig x hx),
      if_neg hne]
  cases cs with
  | nil => exact absurd rfl hne
  | cons c rest =>
    have hc : c.isDigit = true := hdig c (List.mem_cons_self c rest)
    unfold jsParseInt
    split
    · rename_i heq
      injection heq with h1 h2
      rw [h1] at hc
      exact absurd hc (by decide)
    · rename_i heq
      injection heq with h1 h2
      rw [h1] at hc
      exact absurd hc (by decide)
    · rw [hlead]
      rfl

/-- The octet validation accepts a non-empty all-digit string whose value
is at most 255. -/
theorem jsOctetOk_digits (cs : List Char) (hne : cs ≠ [])
    (hdig : ∀ c ∈ cs, c.isDigit = true) (hle : digitsVal cs ≤ 255) :
    jsOctetOk cs = true := by
  unfold jsOctetOk
  rw [jsParseInt_digits cs hne hdig]
  rw [decide_eq_true_eq]
  constructor
  · exact Int.natCast_nonneg _
  · exact_mod_cast hle

/-! ## Theorems for C7 -/

/-- C7 counterexample: with `x = 1.2.3.4` and `suffix = "3"`, the query is
`4.3.2.1.3` and `replace` strips its first `.3` (inside the reversed IP),
so the roundtrip returns `3.1.2.4`, not `1.2.3.4`. -/
theorem c7_counterexample :
    parseReverseIp (reverseIp ("1.2.3.4".toList) ++ '.' :: "3".toList) ("3".toList)
        ≠ some ("1.2.3.4".toList) ∧
    parseReverseIp (reverseIp ("1.2.3.4".toList) ++ '.' :: "3".toList) ("3".toList)
        = some ("3.1.2.4".toList) := by
  constructor
  · decide
  · decide

/-- C7 (amended): the roundtrip
`parseReverse(reverseIPv4(x) + "." + suffix, suffix) = x` holds for every
well-formed dotted-quad `x` (four non-empty decimal octet strings with
values at most 255) provided the suffix contains at least one character
that is neither a decimal digit nor a dot — in particular for every real
RBL zone name; purely numeric dotted suffixes can make the first
occurrence of `"." + suffix` fall inside the reversed address and break
the roundtrip. -/
theorem c7_parseReverse_roundtrip (o1 o2 o3 o4 s : List Char)
    (h1 : o1 ≠ []) (hd1 : ∀ c ∈ o1, c.isDigit = true) (hv1 : digitsVal o1 ≤ 255)
    (h2 : o2 ≠ []) (hd2 : ∀ c ∈ o2, c.isDigit = true) (hv2 : digitsVal o2 ≤ 255)
    (h3 : o3 ≠ []) (hd3 : ∀ c ∈ o3, c.isDigit = true) (hv3 : digitsVal o3 ≤ 255)
    (h4 : o4 ≠ []) (hd4 : ∀ c ∈ o4, c.isDigit = true) (hv4 : digitsVal o4 ≤ 255)
    (hbad : ∃ c ∈ s, dotOrDigit c = false) :
    parseReverseIp (reverseIp (jsJoin '.' [o1, o2, o3, o4]) ++ '.' :: s) s
      = some (jsJoin '.' [o1, o2, o3, o4]) := by
  have hnodot : ∀ p ∈ [o1, o2, o3, o4], '.' ∉ p := by
    intro p hp hdot
    simp only [List.mem_cons, List.not_mem_nil, or_false] at hp
    have hdp : ∀ c ∈ p, c.isDigit = true := by
      rcases hp with rfl | rfl | rfl | rfl
      · exact hd1
      · exact hd2
      · exact hd3
      · exact hd4
    have := hdp '.' hdot
    cases this
  have hnodotR : ∀ p ∈ [o4, o3, o2, o1], '.' ∉ p := by
    intro p hp
    apply hnodot
    simp only [List.mem_cons, List.not_mem_nil, or_false] at hp ⊢
    tauto
  have hdigR : ∀ p ∈ [o4, o3, o2, o1], ∀ c ∈ p, c.isDigit = true := by
    intro p hp
    simp only [List.mem_cons, List.not_mem_nil, or_false] at hp
    rcases hp with rfl | rfl | rfl | rfl
    · exact hd4
    · exact hd3
    · exact hd2
    · exact hd1
  have hrev : reverseIp (jsJoin '.' [o1, o2, o3, o4]) = jsJoin '.' [o4, o3, o2, o1] := by
    unfold reverseIp
    rw [jsSplitOn_jsJoin '.' [o1, o2, o3, o4] (by simp) hnodot]
    exact rfl
  obtain ⟨g, b, t, hs, hg, hb⟩ := exists_first_bad s hbad
  have hgoodrev : ∀ c ∈ jsJoin '.' [o4, o3, o2, o1], dotOrDigit c = true :=
    good_chars_jsJoin [o4, o3, o2, o1] hdigR
  have hstrip : jsReplaceFirst (jsJoin '.' [o4, o3, o2, o1] ++ '.' :: s) ('.' :: s)
      = jsJoin '.' [o4, o3, o2, o1] := by
    rw [hs]
    exact jsReplaceFirst_strip _ hgoodrev g b t hg hb
  have hsplitR : jsSplitOn '.' (jsJoin '.' [o4, o3, o2, o1]) = [o4, o3, o2, o1] :=
    jsSplitOn_jsJoin '.' [o4, o3, o2, o1] (by simp) hnodotR
  unfold parseReverseIp
  rw [hrev, hstrip]
  dsimp only
  rw [hsplitR]
  rw [show ([o4, o3, o2, o1] : List (List Char)).reverse = [o1, o2, o3, o4] from rfl]
  rw [if_neg (by simp)]
  rw [if_pos (by
    simp only [List.all_cons, List.all_nil,
      jsOctetOk_digits o1 h1 hd1 hv1, jsOctetOk_digits o2 h2 hd2 hv2,
      jsOctetOk_digits o3 h3 hd3 hv3, jsOctetOk_digits o4 h4 hd4 hv4]
    rfl)]

/-- Witness for the amended C7 theorem at `x = 127.0.0.2` and suffix
`zen.spamhaus.org`. -/
theorem c7_parseReverse_roundtrip_witness :
    parseReverseIp
        (reverseIp (jsJoin '.' [['1', '2', '7'], ['0'], ['0'], ['2']])
          ++ '.' :: "zen.spamhaus.org".toList)
        ("zen.spamhaus.org".toList)
      = some (jsJoin '.' [['1', '2', '7'], ['0'], ['0'], ['2']]) :=
  c7_parseReverse_roundtrip ['1', '2', '7'] ['0'] ['0'] ['2']
    ("zen.spamhaus.org".toList)
    (by decide) (by decide) (by decide)
    (by decide) (by decide) (by decide)
    (by decide) (by decide) (by decide)
    (by decide) (by decide) (by decide)
    (by decide)

/-! ## Totality of the cached lookup (C10): the promise layer of
rbl-lookup-cached.js, where a rejection of an awaited call would
propagate -/

/-- Async `getCached` seen at the promise layer: every failure inside is
absorbed (the raw memcache rejections by the try/catches of
`MemcacheClient`, the Postgres rejection by the function's own
try/catch — see `getCached`), so the promise resolves on every input. -/
def getCachedE (s : CacheState) (ip rblHost : String) (now : Nat) (env : Env) :
    Except Unit (Option GetResult × CacheState) :=
  .ok (getCached s ip rblHost now env)

/-- Async `cache` seen at the promise layer: the fire-and-forget L1 set
never rejects and the Postgres upsert is caught, so it resolves on every
input (see `cache`). -/
def cacheE (s : CacheState) (ip rblHost : String) (listed : Bool)
    (response : Option RespVal) (error : Option String) (ttl now : Nat)
    (env : Env) : Except Unit CacheState :=
  .ok (cache s ip rblHost listed response error ttl now env)

/-- Function `lookupSingleRbl` never rejects: its whole body (the awaited
race included) sits in one try/catch whose handler returns a result
object. -/
def lookupSingleRblE (rbl : RblServer) (outcome : DnsOutcome) (rt : Nat) :
    Except Unit RblResult :=
  .ok (lookupSingleRbl rbl outcome rt)

/-- Function `lookupSingleRblWithCache` from rbl-lookup-cached.js: no
try/catch of its own, so a rejection of any awaited call would propagate
(the matches model `await`); on a hit it returns the cached object with
`responseTime = 0, fromCache = true`, on a miss it performs the lookup,
fires the cache write and returns the fresh result with
`fromCache = false`. -/
def lookupSingleRblWithCacheE (s : CacheState) (ip : String) (rbl : RblServer)
    (outcome : DnsOutcome) (rt now : Nat) (env : Env) :
    Except Unit (LookupResult × CacheState) :=
  match getCachedE s ip (String.mk rbl.host) now env with
  | .error e => .error e
  | .ok pair =>
    match pair.1 with
    | some c =>
      .ok ({ name := rbl.name, host := rbl.host, description := rbl.description,
             listed := some c.data.listed, response := c.data.response,
             responseTime := 0, error := c.data.error, ttl := c.data.ttl,
             fromCache := true, cachedAt := some c.data.cachedAt,
             expiresAt := some c.data.expiresAt }, pair.2)
    | none =>
      match lookupSingleRblE rbl outcome rt with
      | .error e => .error e
      | .ok result =>
        match cacheE pair.2 ip (String.mk rbl.host) (result.listed == some true)
            result.response result.error result.ttl now env with
        | .error e => .error e
        | .ok s2 =>
          .ok ({ name := result.name, host := result.host,
                 description := result.description, listed := result.listed,
                 response := result.response, responseTime := result.responseTime,
                 error := result.error, ttl := result.ttl, fromCache := false,
                 cachedAt := none, expiresAt := none }, s2)

/-- One child of the aggregate fan-out in `performMultiRblLookup`
(dns-server.js): the try body keeps the awaited result, the catch branch
returns `null`. -/
def aggregateChild (s : CacheState) (ip : String) (rbl : RblServer)
    (outcome : DnsOutcome) (rt now : Nat) (env : Env) : Option LookupResult :=
  match lookupSingleRblWithCacheE s ip rbl outcome rt now env with
  | .ok r => some r.1
  | .error _ => none

/-! ## Theorems for C10 -/

/-- C10: the cached single-RBL lookup is total at its interface — for
every upstream outcome (answer, NXDOMAIN, timeout or any other error),
every cache state, whether the memcache tier is enabled or not, and every
combination of memcache and Postgres faults it returns a result and never
rejects: the `get`/`set` of `MemcacheClient` catch their own errors and
resolve with null/false, and `getCached`/`cache` absorb the Postgres
rejection. Consequently the per-child catch branch of the aggregate
fan-out never yields null. -/
theorem c10_lookupSingleRblWithCache_total (s : CacheState) (ip : String)
    (rbl : RblServer) (outcome : DnsOutcome) (rt now : Nat) (env : Env) :
    ∃ r, lookupSingleRblWithCacheE s ip rbl outcome rt now env = .ok r ∧
      aggregateChild s ip rbl outcome rt now env = some r.1 := by
  unfold aggregateChild lookupSingleRblWithCacheE getCachedE
  dsimp only
  cases hc : (getCached s ip (String.mk rbl.host) now env).1 with
  | some c => exact ⟨_, rfl, rfl⟩
  | none => exact ⟨_, rfl, rfl⟩

/-- Witness for C10 at a concrete timeout outcome with the memcache tier
enabled and every fault injected: the lookup still returns a result and
the child branch keeps it. -/
theorem c10_lookupSingleRblWithCache_total_witness :
    ∃ r, lookupSingleRblWithCacheE ⟨[], []⟩ ("1.2.3.4")
        ⟨"Example RBL", "bl.example.org".toList, "desc"⟩
        (.err ⟨none, "Timeout"⟩) 5000 1000 ⟨true, true, true, true, true⟩ = .ok r ∧
      aggregateChild ⟨[], []⟩ ("1.2.3.4")
        ⟨"Example RBL", "bl.example.org".toList, "desc"⟩
        (.err ⟨none, "Timeout"⟩) 5000 1000 ⟨true, true, true, true, true⟩ = some r.1 :=
  c10_lookupSingleRblWithCache_total ⟨[], []⟩ ("1.2.3.4")
    ⟨"Example RBL", "bl.example.org".toList, "desc"⟩
    (.err ⟨none, "Timeout"⟩) 5000 1000 ⟨true, true, true, true, true⟩

end MultiRbl
